import Mathlib

/-!
Shallow embedding of the Ricochet contact-request workflow
(`src/core/IncomingRequestManager.cpp`) and of the chat-message command
codec (`ChatMessageCommand.cpp`), together with theorems checking the
specification's claims about them.

Conventions of the embedding:
* Qt strings are Lean `String`; `QString::endsWith` and `QString::isEmpty`
  are modelled on the underlying character list so that they evaluate.
* `QDateTime` instants are `Nat` seconds; a null `QDateTime` is `none`.
* The settings store is an association list from hostname to the persisted
  record fields; the per-identity `hostnameBlacklist` is a `List String`.
* Qt signal emission and logging have no modelled effect; `BUG()` /
  `Q_ASSERT` paths are noted where they matter.
* Byte sequences on the wire are `List Nat` (each entry one octet).
-/

/-- Model of `QString::endsWith`, computed on the character data. -/
def strEndsWith (s post : String) : Bool :=
  post.data.isSuffixOf s.data

/-- Model of `QString::isEmpty`, computed on the character data. -/
def strIsEmpty (s : String) : Bool :=
  s.data.isEmpty

/-- Reply statuses of `Protocol::Data::ContactRequest::Response` observed at
    the contact-request boundary. -/
inductive Response where
  | Error
  | Rejected
  | Pending
  | Accepted
  deriving DecidableEq

/-- Connection purposes (`Protocol::Connection::Purpose`) used by this code. -/
inductive Purpose where
  | Unknown
  | InboundRequest
  | KnownContact
  | Other
  deriving DecidableEq

/-- Model of a `Protocol::Connection` as this code observes it: its one-time
    purpose, whether it has been closed, the hostname that
    `authenticatedIdentity(HiddenServiceAuth)` returns (empty string when the
    connection is unauthenticated), and whether a `ContactRequestChannel` can
    be found on it (`findChannel<ContactRequestChannel>`). -/
structure Connection where
  purpose : Purpose
  closed : Bool
  authHostname : String
  hasRequestChannel : Bool
  deriving DecidableEq

/-- Modelled from the spec: `Protocol::Connection::setPurpose` is not under
    `src/`; per the spec it succeeds only while the current purpose is
    `Unknown` and fails (changing nothing) once the purpose has been
    claimed. Returns whether it succeeded together with the connection. -/
def setPurposeConn (c : Connection) (p : Purpose) : Bool × Connection :=
  if c.purpose = Purpose.Unknown then (true, { c with purpose := p })
  else (false, c)

/-- Fields persisted for one request under `contactRequests.<host>`:
    `nickname`, `message`, `requestDate`, `lastRequestDate`. -/
structure PersistedRecord where
  nickname : String
  message : String
  requestDate : Option Nat
  lastRequestDate : Option Nat
  deriving DecidableEq

/-- Model of a `ContactUser` as far as this code touches it: the nickname it
    was created with (`addContact`) and the hostname set via `setHostname`. -/
structure Contact where
  nickname : String
  hostname : String
  deriving DecidableEq

/-- In-memory state of one `IncomingContactRequest`: hostname, nickname and
    message, the two request timestamps (null when never saved/loaded), and
    the attached connection, identified by its id in the connection table
    (`none` when no live connection is attached). -/
structure IncomingContactRequest where
  hostname : String
  nickname : String
  message : String
  requestDate : Option Nat
  lastRequestDate : Option Nat
  connection : Option Nat
  deriving DecidableEq

/-- The `IncomingContactRequest` constructor: stores the hostname; nickname
    and message start empty, both dates null, no connection attached. -/
def newIncomingRequest (hostname : String) : IncomingContactRequest :=
  { hostname := hostname
    nickname := ""
    message := ""
    requestDate := none
    lastRequestDate := none
    connection := none }

/-- Whole-world state seen by `IncomingRequestManager`: the active request
    list `m_requests`, the persisted blacklist and request store, the
    hostnames known to the contacts manager (`ContactsManager::lookupHostname`)
    and to the identity manager (`identityManager->lookupHostname`), the
    table of live connections (keyed by id), and the contact list that
    `addContact` appends to. -/
structure ManagerState where
  requests : List IncomingContactRequest
  blacklist : List String
  store : List (String × PersistedRecord)
  contactHostnames : List String
  localHostnames : List String
  connections : List (Nat × Connection)
  contacts : List Contact
  deriving DecidableEq

/-- Look a connection up by id. -/
def lookupConn (st : ManagerState) (id : Nat) : Option Connection :=
  (st.connections.find? (fun p => p.1 == id)).map (fun p => p.2)

/-- Apply a function to the connection with the given id (if present). -/
def mapConnAt (st : ManagerState) (id : Nat) (g : Connection → Connection) :
    ManagerState :=
  { st with connections :=
      st.connections.map (fun p => if p.1 == id then (p.1, g p.2) else p) }

/-- Model of `Connection::close`: the connection is marked closed. -/
def closeConn (st : ManagerState) (id : Nat) : ManagerState :=
  mapConnAt st id (fun c => { c with closed := true })

/-- Write one record into the settings store, replacing any previous entry
    for the same hostname. -/
def storeWrite (store : List (String × PersistedRecord)) (h : String)
    (rec : PersistedRecord) : List (String × PersistedRecord) :=
  (h, rec) :: store.filter (fun p => p.1 != h)

/-- Model of `SettingsObject::undefine` on `contactRequests.<host>`: the
    entry is removed. -/
def storeErase (store : List (String × PersistedRecord)) (h : String) :
    List (String × PersistedRecord) :=
  store.filter (fun p => p.1 != h)

/-- Read a record from the settings store. -/
def storeLookup (store : List (String × PersistedRecord)) (h : String) :
    Option PersistedRecord :=
  (store.find? (fun p => p.1 == h)).map (fun p => p.2)

/-- IncomingRequestManager::isHostnameRejected: membership of the hostname
    in the persisted `hostnameBlacklist`. -/
def isHostnameRejected (st : ManagerState) (hostname : String) : Bool :=
  st.blacklist.contains hostname

/-- IncomingRequestManager::addRejectedHost, on the persisted
    `hostnameBlacklist` value: append the hostname only when it is not
    already there (`if (!blacklist.contains(...)) { append; write; }`). -/
def addRejectedHostL (blacklist : List String) (hostname : String) :
    List String :=
  if blacklist.contains hostname then blacklist
  else blacklist ++ [hostname]

/-- IncomingRequestManager::addRejectedHost: read the blacklist from the
    identity settings, update it, write it back. -/
def addRejectedHost (st : ManagerState) (hostname : String) : ManagerState :=
  { st with blacklist := addRejectedHostL st.blacklist hostname }

/-- IncomingRequestManager::requestFromHostname: the first active request
    whose hostname matches. -/
def requestFromHostname (st : ManagerState) (hostname : String) :
    Option IncomingContactRequest :=
  st.requests.find? (fun r => r.hostname == hostname)

/-- IncomingContactRequest::renew: set `m_lastRequestDate` to the current
    time. -/
def renew (r : IncomingContactRequest) (now : Nat) : IncomingContactRequest :=
  { r with lastRequestDate := some now }

/-- Date mutation performed by `IncomingContactRequest::save`: when
    `m_requestDate` is still null, both dates are set to the current time. -/
def saveDates (r : IncomingContactRequest) (now : Nat) :
    IncomingContactRequest :=
  if r.requestDate.isNone then
    { r with requestDate := some now, lastRequestDate := some now }
  else r

/-- Record written to the settings store by `IncomingContactRequest::save`. -/
def persistOf (r : IncomingContactRequest) : PersistedRecord :=
  { nickname := r.nickname
    message := r.message
    requestDate := r.requestDate
    lastRequestDate := r.lastRequestDate }

/-- IncomingContactRequest::setChannel. In order: when a connection is
    already attached, it is closed first; then the new channel's connection
    must take purpose `InboundRequest` (spec-modelled `setPurpose`, see
    `setPurposeConn`) — on failure the new connection is closed and nothing
    is attached; on success the connection is attached and the channel's
    nickname and message are copied into the request. The channel is
    identified with its connection id, and the channel's peer-supplied
    nickname and message are passed alongside. -/
def setChannel (st : ManagerState) (r : IncomingContactRequest)
    (connId : Nat) (nick msg : String) :
    ManagerState × IncomingContactRequest :=
  let st1 := match r.connection with
    | some oldId => closeConn st oldId
    | none => st
  match lookupConn st1 connId with
  | none => (st1, r)
  | some c =>
    let pc := setPurposeConn c Purpose.InboundRequest
    if pc.1 then
      (mapConnAt st1 connId (fun _ => pc.2),
       { r with connection := some connId, nickname := nick, message := msg })
    else
      (closeConn st1 connId, r)

/-- Replace the first list element satisfying `p` by `y`, leaving the rest
    alone: the functional image of mutating, in place, the object that
    `requestFromHostname` returned. -/
def updateFirst (p : IncomingContactRequest → Bool)
    (y : IncomingContactRequest) :
    List IncomingContactRequest → List IncomingContactRequest
  | [] => []
  | x :: xs => if p x then y :: xs else x :: updateFirst p y xs

/-- IncomingRequestManager::requestReceived, translated branch by branch.
    The inbound channel is identified by its connection id; `nick` and `msg`
    are the channel's peer-supplied nickname and message; `now` is the
    current time. Returns the new state together with the response status
    set on the channel (`none` when the handler returns without setting
    one, as in the known-contact `BUG()` branch). -/
def requestReceived (st : ManagerState) (connId : Nat) (nick msg : String)
    (now : Nat) : ManagerState × Option Response :=
  let hostname := match lookupConn st connId with
    | some c => c.authHostname
    | none => ""
  if strIsEmpty hostname || !strEndsWith hostname ".onion" then
    (st, some Response.Error)
  else if isHostnameRejected st hostname then
    (st, some Response.Rejected)
  else if st.localHostnames.contains hostname then
    (st, some Response.Error)
  else
    match requestFromHostname st hostname with
    | some req =>
      let sc := setChannel st req connId nick msg
      let r2 := renew sc.2 now
      if st.contactHostnames.contains hostname then
        ({ sc.1 with requests :=
            updateFirst (fun q => q.hostname == hostname) r2 sc.1.requests },
         none)
      else
        let r3 := saveDates r2 now
        ({ sc.1 with
            requests :=
              updateFirst (fun q => q.hostname == hostname) r3 sc.1.requests,
            store := storeWrite sc.1.store hostname (persistOf r3) },
         some Response.Pending)
    | none =>
      let sc := setChannel st (newIncomingRequest hostname) connId nick msg
      if st.contactHostnames.contains hostname then
        (sc.1, none)
      else
        let r3 := saveDates sc.2 now
        ({ sc.1 with
            requests := sc.1.requests ++ [r3],
            store := storeWrite sc.1.store hostname (persistOf r3) },
         some Response.Pending)

/-- Remove the first occurrence of a request from the active list
    (`QList::removeOne`). -/
def removeFirst (l : List IncomingContactRequest)
    (r : IncomingContactRequest) : List IncomingContactRequest :=
  match l with
  | [] => []
  | x :: xs => if x = r then xs else x :: removeFirst xs r

/-- IncomingContactRequest::reject. In order: when a connection is attached,
    send `Rejected` on its contact-request channel (when one is found) and
    close the connection; remove the persisted record; add the hostname to
    the blacklist; remove the request from the manager's active list.
    Returns the new state and the response sent on the channel, if any. -/
def reject (st : ManagerState) (r : IncomingContactRequest) :
    ManagerState × Option Response :=
  let s1 := match r.connection with
    | some cid =>
      match lookupConn st cid with
      | some c =>
        (closeConn st cid,
         if c.hasRequestChannel then some Response.Rejected else none)
      | none => (st, (none : Option Response))
    | none => (st, (none : Option Response))
  let st2 := { s1.1 with store := storeErase s1.1.store r.hostname }
  let st3 := addRejectedHost st2 r.hostname
  ({ st3 with requests := removeFirst st3.requests r }, s1.2)

/-- Shared tail of `IncomingContactRequest::accept` once the contact `u` has
    been obtained. When a connection is attached: if a contact-request
    channel is found, the connection is handed to the contact and `Accepted`
    is sent (the hand-off itself, `ContactUser::assignConnection`, is not
    under `src/` and is modelled from the spec as the contact claiming the
    connection, so the defensive `BUG()`-and-close branch is not taken);
    otherwise the connection is closed; either way the request's connection
    reference is cleared. Then the persisted record is removed and the
    request leaves the active list. Returns the state, the contact used,
    and the response sent on the channel, if any. -/
def acceptWith (st : ManagerState) (r : IncomingContactRequest)
    (u : Contact) :
    Except Unit (ManagerState × Contact × Option Response) :=
  let s1 := match r.connection with
    | some cid =>
      match lookupConn st cid with
      | some c =>
        if c.hasRequestChannel then (st, some Response.Accepted)
        else (closeConn st cid, (none : Option Response))
      | none => (st, (none : Option Response))
    | none => (st, (none : Option Response))
  let st2 := { s1.1 with store := storeErase s1.1.store r.hostname }
  Except.ok ({ st2 with requests := removeFirst st2.requests r }, u, s1.2)

/-- IncomingContactRequest::accept, entry point. When no contact is
    supplied, the code asserts that the nickname is non-empty
    (`Q_ASSERT(!nickname().isEmpty())`, modelled as failure) and creates one
    via `addContact(nickname())` and `setHostname`; then the shared tail
    `acceptWith` runs. -/
def accept (st : ManagerState) (r : IncomingContactRequest)
    (user : Option Contact) :
    Except Unit (ManagerState × Contact × Option Response) :=
  match user with
  | none =>
    if strIsEmpty r.nickname then Except.error ()
    else
      let u : Contact := { nickname := r.nickname, hostname := r.hostname }
      acceptWith { st with contacts := st.contacts ++ [u] } r u
  | some u => acceptWith st r u

namespace ChatMessageCommand

/-- Big-endian four-byte encoding of an unsigned 32-bit value, as
    `QDataStream` writes a `quint32`; a wider value is wrapped, as the
    C++ cast `(quint32)` does. -/
def encodeU32 (n : Nat) : List Nat :=
  [n / 16777216 % 256, n / 65536 % 256, n / 256 % 256, n % 256]

/-- Reading a `quint32` from the stream: four bytes, big endian; `none`
    models `QDataStream` entering an error status when the bytes run out. -/
def readU32 : List Nat → Option (Nat × List Nat)
  | a :: b :: c :: d :: rest => some (((a * 256 + b) * 256 + c) * 256 + d, rest)
  | _ => none

/-- Reading a serialized `QByteArray`: a four-byte length prefix followed by
    that many bytes; `none` when the remaining bytes are fewer than the
    declared length. -/
def readBlock (l : List Nat) : Option (List Nat × List Nat) :=
  match readU32 l with
  | none => none
  | some (len, rest) =>
    if len ≤ rest.length then some (rest.take len, rest.drop len) else none

/-- ChatMessageCommand::send, restricted to the payload it builds after the
    six-byte command header: when the UTF-8 text exceeds
    `maxCommandData - 6` bytes, `Q_ASSERT_X` flags a programming error
    (first component `true`) and the text is resized to exactly
    `maxCommandData - 6` bytes; then the stream writes the `quint32`
    second-delta followed by the length-prefixed text. `text` is the UTF-8
    byte sequence of the message. -/
def send (maxCommandData : Nat) (delta : Nat) (text : List Nat) :
    Bool × List Nat :=
  let truncated := maxCommandData - 6 < text.length
  let encodedText := if maxCommandData - 6 < text.length
    then text.take (maxCommandData - 6) else text
  (decide truncated,
   encodeU32 delta ++ encodeU32 encodedText.length ++ encodedText)

/-- Outcome of `ChatMessageCommand::process`: either the command is logged
    and discarded (stream status not `Ok`), or the timestamp delta and text
    bytes were read. -/
inductive ProcessOutcome where
  | discarded
  | received (delta : Nat) (text : List Nat)
  deriving DecidableEq

/-- ChatMessageCommand::process: read a `quint32` then a `QByteArray` from
    the command data, in that order; if the stream reports an error the
    command is discarded with no further effect. -/
def process (data : List Nat) : ProcessOutcome :=
  match readU32 data with
  | none => ProcessOutcome.discarded
  | some (ts, rest) =>
    match readBlock rest with
    | none => ProcessOutcome.discarded
    | some (text, _) => ProcessOutcome.received ts text

/-- The well-formed payloads: those from which both fields parse, in the
    fixed order `[delta][length-prefixed text]`. -/
def decodePayload (data : List Nat) : Option (Nat × List Nat) :=
  match readU32 data with
  | none => none
  | some (ts, rest) => (readBlock rest).map (fun p => (ts, p.1))

end ChatMessageCommand

/-! ## Helper lemmas -/

/-- The first component of `setChannel` differs from the input state only in
    the connection table. -/
lemma setChannel_frame (st : ManagerState) (r : IncomingContactRequest)
    (connId : Nat) (nick msg : String) :
    ∃ cs, (setChannel st r connId nick msg).1 =
      { st with connections := cs } := by
  unfold setChannel closeConn mapConnAt
  cases r.connection <;> dsimp only <;> split <;>
    (try split) <;> exact ⟨_, rfl⟩

/-- `setChannel` never changes the request's hostname or its two dates. -/
lemma setChannel_snd (st : ManagerState) (r : IncomingContactRequest)
    (connId : Nat) (nick msg : String) :
    (setChannel st r connId nick msg).2.hostname = r.hostname ∧
    (setChannel st r connId nick msg).2.requestDate = r.requestDate ∧
    (setChannel st r connId nick msg).2.lastRequestDate =
      r.lastRequestDate := by
  unfold setChannel closeConn mapConnAt
  cases r.connection <;> dsimp only <;> split <;>
    (try split) <;> exact ⟨rfl, rfl, rfl⟩

lemma updateFirst_length (p : IncomingContactRequest → Bool)
    (y : IncomingContactRequest) (l : List IncomingContactRequest) :
    (updateFirst p y l).length = l.length := by
  induction l with
  | nil => rfl
  | cons x xs ih => by_cases h : p x = true <;> simp [updateFirst, h, ih]

lemma updateFirst_map (g : IncomingContactRequest → String)
    (p : IncomingContactRequest → Bool) (y : IncomingContactRequest)
    (hg : ∀ x, p x = true → g x = g y) (l : List IncomingContactRequest) :
    (updateFirst p y l).map g = l.map g := by
  induction l with
  | nil => rfl
  | cons x xs ih =>
    by_cases h : p x = true
    · simp [updateFirst, h, hg x h]
    · simp [updateFirst, h, ih]

lemma updateFirst_countP (p : IncomingContactRequest → Bool)
    (y : IncomingContactRequest) (hy : p y = true)
    (l : List IncomingContactRequest) :
    (updateFirst p y l).countP p = l.countP p := by
  induction l with
  | nil => rfl
  | cons x xs ih =>
    by_cases h : p x = true
    · simp [updateFirst, h, List.countP_cons, hy]
    · simp [updateFirst, h, List.countP_cons, ih]

/-- When exactly one element satisfies `p` and the replacement satisfies it
    too, every element of the updated list satisfying `p` is the
    replacement. -/
lemma updateFirst_mem_unique (p : IncomingContactRequest → Bool)
    (y : IncomingContactRequest) (hy : p y = true) :
    ∀ l : List IncomingContactRequest, l.countP p = 1 →
      ∀ x ∈ updateFirst p y l, p x = true → x = y := by
  intro l
  induction l with
  | nil => intro _ x hx; simp [updateFirst] at hx
  | cons a as ih =>
    intro h1 x hx hpx
    by_cases ha : p a = true
    · have hz : as.countP p = 0 := by
        have hcc : (a :: as).countP p = as.countP p + 1 := by
          simp [List.countP_cons, ha]
        omega
      simp only [updateFirst, ha, if_pos] at hx
      rcases List.mem_cons.mp hx with rfl | hxas
      · rfl
      · exact absurd hpx (by simpa using List.countP_eq_zero.mp hz x hxas)
    · have h1x : as.countP p = 1 := by
        have hcc : (a :: as).countP p = as.countP p := by
          simp [List.countP_cons, ha]
        omega
      simp only [updateFirst, ha, if_neg, Bool.false_eq_true,
        not_false_iff] at hx
      rcases List.mem_cons.mp hx with rfl | hxas
      · exact absurd hpx (by simp [ha])
      · exact ih h1x x hxas hpx

lemma not_mem_removeFirst (r : IncomingContactRequest) :
    ∀ l : List IncomingContactRequest, l.count r ≤ 1 →
      r ∉ removeFirst l r := by
  intro l
  induction l with
  | nil => intro _ h; simp [removeFirst] at h
  | cons x xs ih =>
    intro hc
    by_cases hx : x = r
    · subst hx
      have hz : xs.count x = 0 := by
        simp [List.count_cons] at hc; omega
      simpa [removeFirst] using List.count_eq_zero.mp hz
    · have hc2 : xs.count r ≤ 1 := by
        simp [List.count_cons, hx] at hc
        omega
      intro hmem
      simp only [removeFirst, if_neg hx] at hmem
      rcases List.mem_cons.mp hmem with rfl | h2
      · exact hx rfl
      · exact ih hc2 h2

lemma storeLookup_storeErase (store : List (String × PersistedRecord))
    (h : String) : storeLookup (storeErase store h) h = none := by
  unfold storeLookup storeErase
  have hf : List.find? (fun p => p.1 == h)
      (List.filter (fun p => p.1 != h) store) = none := by
    rw [List.find?_eq_none]
    intro x hx
    have hm := List.of_mem_filter hx
    simp at hm ⊢
    exact hm
  rw [hf]
  rfl

lemma mem_addRejectedHostL (bl : List String) (h : String) :
    h ∈ addRejectedHostL bl h := by
  unfold addRejectedHostL
  split
  · next hc => simpa using hc
  · simp

lemma addRejectedHostL_idem (bl : List String) (h : String) :
    addRejectedHostL (addRejectedHostL bl h) h = addRejectedHostL bl h := by
  have hm : (addRejectedHostL bl h).contains h = true := by
    simpa using mem_addRejectedHostL bl h
  show (if (addRejectedHostL bl h).contains h then addRejectedHostL bl h
        else addRejectedHostL bl h ++ [h]) = addRejectedHostL bl h
  rw [if_pos hm]

lemma find?_mapkey (l : List (Nat × Connection)) (id j : Nat)
    (g : Connection → Connection) :
    ((l.map (fun p => if p.1 == id then (p.1, g p.2) else p)).find?
        (fun p => p.1 == j)) =
      (l.find? (fun p => p.1 == j)).map
        (fun p => if p.1 == id then (p.1, g p.2) else p) := by
  rw [List.find?_map]
  have hp : ((fun p => p.1 == j) ∘ fun p : Nat × Connection =>
      if p.1 == id then (p.1, g p.2) else p) = fun p => p.1 == j := by
    funext p
    by_cases hi : p.1 = id <;> simp [Function.comp, hi]
  rw [hp]

lemma lookupConn_mapConnAt (st : ManagerState) (id j : Nat)
    (g : Connection → Connection) :
    lookupConn (mapConnAt st id g) j =
      (lookupConn st j).map (fun c => if j == id then g c else c) := by
  unfold lookupConn mapConnAt
  rw [find?_mapkey]
  cases hf : st.connections.find? (fun p => p.1 == j) with
  | none => rfl
  | some q =>
    have hq := List.find?_some hf
    have hqe : q.1 = j := by simpa using hq
    by_cases hj : j = id <;> simp [hqe, hj]

lemma lookupConn_closeConn (st : ManagerState) (i j : Nat) :
    lookupConn (closeConn st i) j =
      (lookupConn st j).map
        (fun c => if j == i then { c with closed := true } else c) := by
  unfold closeConn
  rw [lookupConn_mapConnAt]

lemma reject_proj (st : ManagerState) (r : IncomingContactRequest) :
    (reject st r).1.requests = removeFirst st.requests r ∧
    (reject st r).1.store = storeErase st.store r.hostname ∧
    (reject st r).1.blacklist = addRejectedHostL st.blacklist r.hostname ∧
    (reject st r).1.contactHostnames = st.contactHostnames ∧
    (reject st r).1.localHostnames = st.localHostnames ∧
    (reject st r).1.contacts = st.contacts := by
  unfold reject addRejectedHost closeConn mapConnAt
  cases r.connection <;> dsimp only <;> (try split) <;> (try split) <;>
    exact ⟨rfl, rfl, rfl, rfl, rfl, rfl⟩

lemma requestReceived_of_blacklisted (st : ManagerState) (connId : Nat)
    (nick msg : String) (now : Nat) (c : Connection)
    (hl : lookupConn st connId = some c)
    (hne : strIsEmpty c.authHostname = false)
    (hsfx : strEndsWith c.authHostname ".onion" = true)
    (hblk : isHostnameRejected st c.authHostname = true) :
    requestReceived st connId nick msg now = (st, some Response.Rejected) := by
  unfold requestReceived
  rw [hl]
  simp [hne, hsfx, hblk]

/-! ## Concrete states used by the witnesses -/

/-- An open, authenticated inbound connection with a contact-request
    channel. -/
def exConn : Connection :=
  { purpose := Purpose.Unknown
    closed := false
    authHostname := "a.onion"
    hasRequestChannel := true }

/-- A saved request record with no attached connection. -/
def exReq : IncomingContactRequest :=
  { hostname := "a.onion"
    nickname := "Bob"
    message := "hello"
    requestDate := some 1
    lastRequestDate := some 1
    connection := none }

/-- A state whose blacklist already holds the peer hostname. -/
def exStBlack : ManagerState :=
  { requests := []
    blacklist := ["a.onion"]
    store := []
    contactHostnames := []
    localHostnames := []
    connections := [(0, exConn)]
    contacts := [] }

/-! ## Claims -/

/-- C2: for every hostname in the persisted blacklist, a well-formed inbound
    request authenticated as that hostname is answered `Rejected` and the
    whole state — active requests and persisted store included — is exactly
    as before, whatever record existed for the hostname. -/
theorem C2_blacklist_rejects_without_transition (st : ManagerState)
    (connId : Nat) (nick msg : String) (now : Nat) (c : Connection)
    (hl : lookupConn st connId = some c)
    (hne : strIsEmpty c.authHostname = false)
    (hsfx : strEndsWith c.authHostname ".onion" = true)
    (hblk : c.authHostname ∈ st.blacklist) :
    requestReceived st connId nick msg now = (st, some Response.Rejected) :=
  requestReceived_of_blacklisted st connId nick msg now c hl hne hsfx
    (by simpa [isHostnameRejected] using hblk)

/-- Witness for C2 at a concrete blacklisted state. -/
theorem C2_blacklist_rejects_without_transition_witness :
    requestReceived exStBlack 0 "Bob" "hello" 5 =
      (exStBlack, some Response.Rejected) :=
  C2_blacklist_rejects_without_transition exStBlack 0 "Bob" "hello" 5 exConn
    (by decide) (by decide) (by decide) (by decide)

/-- C9: addRejectedHost is idempotent and keeps the blacklist free of
    duplicates: adding an already-present hostname changes nothing, adding
    twice equals adding once, and a duplicate-free blacklist stays
    duplicate free. -/
theorem C9_addRejectedHost_idempotent (st : ManagerState) (h : String) :
    (h ∈ st.blacklist → addRejectedHost st h = st) ∧
    addRejectedHost (addRejectedHost st h) h = addRejectedHost st h ∧
    (st.blacklist.Nodup → (addRejectedHost st h).blacklist.Nodup) := by
  refine ⟨?_, ?_, ?_⟩
  · intro hm
    unfold addRejectedHost addRejectedHostL
    rw [if_pos (by simpa using hm)]
  · show ({ st with blacklist :=
        addRejectedHostL (addRejectedHostL st.blacklist h) h } : ManagerState)
      = { st with blacklist := addRejectedHostL st.blacklist h }
    rw [addRejectedHostL_idem]
  · intro hnd
    unfold addRejectedHost addRejectedHostL
    split
    · exact hnd
    · next hc =>
      refine List.Nodup.append hnd (List.nodup_singleton h) ?_
      simp only [List.disjoint_singleton]
      simpa using hc

/-- Witness for C9 at a concrete state. -/
theorem C9_addRejectedHost_idempotent_witness :
    addRejectedHost exStBlack "a.onion" = exStBlack :=
  (C9_addRejectedHost_idempotent exStBlack "a.onion").1 (by decide)

/-- The saved request with connection 0 attached. -/
def exReqAttached : IncomingContactRequest :=
  { exReq with connection := some 0 }

/-- A state with two open connections and the attached request. -/
def exStTwoConns : ManagerState :=
  { requests := [exReqAttached]
    blacklist := []
    store := []
    contactHostnames := []
    localHostnames := []
    connections := [(0, exConn), (1, exConn)]
    contacts := [] }

/-- C10: a request holds at most one live connection: whenever `setChannel`
    runs on a request that already has an attached connection, that
    previous connection ends up closed in the resulting state (whatever the
    fate of the new channel's connection). -/
theorem C10_setChannel_closes_previous (st : ManagerState)
    (r : IncomingContactRequest) (connId : Nat) (nick msg : String)
    (oldId : Nat) (hold : r.connection = some oldId) :
    Option.map Connection.closed
        (lookupConn (setChannel st r connId nick msg).1 oldId) =
      Option.map (fun _ => true) (lookupConn st oldId) := by
  unfold setChannel
  rw [hold]
  dsimp only
  cases hso : lookupConn st oldId with
  | none =>
    have h1 : lookupConn (closeConn st oldId) oldId = none := by
      unfold closeConn
      rw [lookupConn_mapConnAt, hso]
      rfl
    split
    · rw [h1]
      rfl
    · next c hl =>
      unfold setPurposeConn
      by_cases hp : c.purpose = Purpose.Unknown
      · rw [if_pos hp]
        dsimp only
        rw [if_pos rfl]
        dsimp only
        rw [lookupConn_mapConnAt, h1]
        rfl
      · rw [if_neg hp]
        dsimp only
        rw [if_neg (by simp)]
        dsimp only
        rw [lookupConn_closeConn, h1]
        rfl
  | some c0 =>
    have h1 : lookupConn (closeConn st oldId) oldId =
        some { c0 with closed := true } := by
      unfold closeConn
      rw [lookupConn_mapConnAt, hso]
      simp
    split
    · rw [h1]
      rfl
    · next c hl =>
      unfold setPurposeConn
      by_cases hp : c.purpose = Purpose.Unknown
      · rw [if_pos hp]
        dsimp only
        rw [if_pos rfl]
        dsimp only
        rw [lookupConn_mapConnAt, h1]
        by_cases hoc : oldId = connId
        · subst hoc
          rw [h1] at hl
          have hc : c = { c0 with closed := true } :=
            (Option.some.inj hl).symm
          simp [hc]
        · have hb : (oldId == connId) = false := by simpa using hoc
          simp [hb]
      · rw [if_neg hp]
        dsimp only
        rw [if_neg (by simp)]
        dsimp only
        rw [lookupConn_closeConn, h1]
        by_cases hoc : oldId = connId
        · simp [hoc]
        · have hb : (oldId == connId) = false := by simpa using hoc
          simp [hb]

/-- Witness for C10: the request's old connection 0 is closed after a new
    channel on connection 1 is attached. -/
theorem C10_setChannel_closes_previous_witness :
    Option.map Connection.closed
        (lookupConn (setChannel exStTwoConns exReqAttached 1 "Bob" "hi").1 0)
      = some true := by
  have h := C10_setChannel_closes_previous exStTwoConns exReqAttached 1
    "Bob" "hi" 0 rfl
  rw [h]
  decide

/-- C3: after `reject`, the hostname is blacklisted, its persisted record
    and active-set entry are gone, and a later well-formed inbound request
    authenticated as that hostname is answered `Rejected` with no state
    change at all — it never reaches `Pending` again. -/
theorem C3_reject_blacklists_forever (st : ManagerState)
    (r : IncomingContactRequest) (connId : Nat) (nick msg : String)
    (now : Nat) (c : Connection)
    (hne : strIsEmpty r.hostname = false)
    (hsfx : strEndsWith r.hostname ".onion" = true)
    (hcount : st.requests.count r ≤ 1)
    (hauth : lookupConn (reject st r).1 connId = some c)
    (hca : c.authHostname = r.hostname) :
    r.hostname ∈ (reject st r).1.blacklist ∧
    storeLookup (reject st r).1.store r.hostname = none ∧
    r ∉ (reject st r).1.requests ∧
    requestReceived (reject st r).1 connId nick msg now =
      ((reject st r).1, some Response.Rejected) := by
  obtain ⟨hreq, hsto, hbl, _, _, _⟩ := reject_proj st r
  refine ⟨?_, ?_, ?_, ?_⟩
  · rw [hbl]
    exact mem_addRejectedHostL st.blacklist r.hostname
  · rw [hsto]
    exact storeLookup_storeErase st.store r.hostname
  · rw [hreq]
    exact not_mem_removeFirst r st.requests hcount
  · apply requestReceived_of_blacklisted _ _ _ _ _ c hauth
    · rw [hca]
      exact hne
    · rw [hca]
      exact hsfx
    · unfold isHostnameRejected
      rw [hca, hbl]
      simpa using mem_addRejectedHostL st.blacklist r.hostname

/-- A state holding the saved request `exReq` with its persisted record. -/
def exStC3 : ManagerState :=
  { requests := [exReq]
    blacklist := []
    store := [("a.onion", persistOf exReq)]
    contactHostnames := []
    localHostnames := []
    connections := [(0, exConn)]
    contacts := [] }

/-- Witness for C3 at a concrete state. -/
theorem C3_reject_blacklists_forever_witness :
    "a.onion" ∈ (reject exStC3 exReq).1.blacklist ∧
    storeLookup (reject exStC3 exReq).1.store "a.onion" = none ∧
    exReq ∉ (reject exStC3 exReq).1.requests ∧
    requestReceived (reject exStC3 exReq).1 0 "Bob" "hello" 7 =
      ((reject exStC3 exReq).1, some Response.Rejected) :=
  C3_reject_blacklists_forever exStC3 exReq 0 "Bob" "hello" 7 exConn
    (by decide) (by decide) (by decide) (by decide) (by decide)

/-- C5: with no live connection attached, `accept(none)` on a record with a
    non-empty nickname creates a contact carrying that nickname and the
    request's hostname, removes the persisted record and drops the request
    from the active set; with an empty nickname it fails (the assertion
    fires) and creates nothing. -/
theorem C5_accept_no_connection (st : ManagerState)
    (r : IncomingContactRequest) (hconn : r.connection = none)
    (hcount : st.requests.count r ≤ 1) :
    (strIsEmpty r.nickname = false →
      accept st r none =
        Except.ok
          ({ st with
              contacts := st.contacts ++ [⟨r.nickname, r.hostname⟩],
              store := storeErase st.store r.hostname,
              requests := removeFirst st.requests r },
           (⟨r.nickname, r.hostname⟩ : Contact), none) ∧
      storeLookup (storeErase st.store r.hostname) r.hostname = none ∧
      r ∉ removeFirst st.requests r) ∧
    (strIsEmpty r.nickname = true → accept st r none = Except.error ()) := by
  constructor
  · intro hnick
    refine ⟨?_, storeLookup_storeErase st.store r.hostname,
      not_mem_removeFirst r st.requests hcount⟩
    unfold accept acceptWith
    dsimp only
    rw [hnick]
    rw [if_neg (by simp)]
    rw [hconn]
  · intro hnick
    unfold accept
    dsimp only
    rw [hnick]
    rw [if_pos rfl]

/-- Witness for C5: accepting the saved request creates contact Bob and
    clears the record. -/
theorem C5_accept_no_connection_witness :
    accept exStC3 exReq none =
      Except.ok
        ({ exStC3 with
            contacts := exStC3.contacts ++ [⟨"Bob", "a.onion"⟩],
            store := storeErase exStC3.store "a.onion",
            requests := removeFirst exStC3.requests exReq },
         (⟨"Bob", "a.onion"⟩ : Contact), none) :=
  (((C5_accept_no_connection exStC3 exReq (by decide) (by decide)).1
    (by decide)).1)

lemma drop8_append (a b : Nat) (t : List Nat) :
    (ChatMessageCommand.encodeU32 a ++
      (ChatMessageCommand.encodeU32 b ++ t)).drop 8 = t := by
  simp only [ChatMessageCommand.encodeU32, List.cons_append, List.nil_append]
  rfl

lemma readU32_encodeU32 (n : Nat) (rest : List Nat) (h : n < 4294967296) :
    ChatMessageCommand.readU32 (ChatMessageCommand.encodeU32 n ++ rest) =
      some (n, rest) := by
  simp only [ChatMessageCommand.encodeU32, List.cons_append, List.nil_append,
    ChatMessageCommand.readU32]
  have harith : ((n / 16777216 % 256 * 256 + n / 65536 % 256) * 256 +
      n / 256 % 256) * 256 + n % 256 = n := by omega
  rw [harith]

/-- C6: a text whose UTF-8 byte count exceeds `maxCommandData - 6` is
    flagged as a programming error and its sent text portion is truncated
    to exactly `maxCommandData - 6` bytes; a text at or under the limit is
    sent unflagged and untruncated (the text portion of the payload is the
    part after the four delta bytes and the four length bytes). -/
theorem C6_send_truncates_oversize (maxCommandData delta : Nat)
    (text : List Nat) :
    (maxCommandData - 6 < text.length →
      (ChatMessageCommand.send maxCommandData delta text).1 = true ∧
      ((ChatMessageCommand.send maxCommandData delta text).2.drop 8).length
        = maxCommandData - 6) ∧
    (text.length ≤ maxCommandData - 6 →
      (ChatMessageCommand.send maxCommandData delta text).1 = false ∧
      (ChatMessageCommand.send maxCommandData delta text).2.drop 8
        = text) := by
  constructor
  · intro hover
    unfold ChatMessageCommand.send
    dsimp only
    rw [if_pos hover]
    constructor
    · simp [hover]
    · rw [List.append_assoc, drop8_append]
      rw [List.length_take]
      omega
  · intro hunder
    unfold ChatMessageCommand.send
    dsimp only
    rw [if_neg (by omega)]
    constructor
    · simp
      omega
    · rw [List.append_assoc, drop8_append]

/-- Witness for C6: a five-byte text against a ten-byte frame limit is
    flagged and cut to four bytes; a four-byte text goes through intact. -/
theorem C6_send_truncates_oversize_witness :
    ((ChatMessageCommand.send 10 7 [1, 2, 3, 4, 5]).1 = true ∧
      ((ChatMessageCommand.send 10 7 [1, 2, 3, 4, 5]).2.drop 8).length = 4) ∧
    ((ChatMessageCommand.send 10 7 [1, 2, 3, 4]).1 = false ∧
      (ChatMessageCommand.send 10 7 [1, 2, 3, 4]).2.drop 8 = [1, 2, 3, 4]) :=
  ⟨(C6_send_truncates_oversize 10 7 [1, 2, 3, 4, 5]).1 (by decide),
   (C6_send_truncates_oversize 10 7 [1, 2, 3, 4]).2 (by decide)⟩

/-- C7: `process` is total on arbitrary inbound bytes: it discards the
    command exactly when the fixed-order parse (four delta bytes, then a
    length-prefixed block) fails, and otherwise reports exactly the parsed
    fields — malformed input can never produce anything but a discard. -/
theorem C7_process_total_on_malformed (data : List Nat) :
    (ChatMessageCommand.process data =
        ChatMessageCommand.ProcessOutcome.discarded ↔
      ChatMessageCommand.decodePayload data = none) ∧
    (∀ ts text, ChatMessageCommand.process data =
        ChatMessageCommand.ProcessOutcome.received ts text ↔
      ChatMessageCommand.decodePayload data = some (ts, text)) := by
  unfold ChatMessageCommand.process ChatMessageCommand.decodePayload
  cases ChatMessageCommand.readU32 data with
  | none => simp
  | some p =>
    obtain ⟨ts0, rest⟩ := p
    dsimp only
    cases ChatMessageCommand.readBlock rest with
    | none => simp
    | some q =>
      obtain ⟨text0, rem⟩ := q
      dsimp only
      constructor
      · simp
      · intro ts text
        constructor
        · intro h
          obtain ⟨h1, h2⟩ := ChatMessageCommand.ProcessOutcome.received.inj h
          simp [h1, h2]
        · intro h
          simp at h
          obtain ⟨h1, h2⟩ := h
          rw [h1, h2]

/-- Witness for C7: a two-byte datagram cannot be parsed and is discarded. -/
theorem C7_process_total_on_malformed_witness :
    ChatMessageCommand.process [1, 2] =
      ChatMessageCommand.ProcessOutcome.discarded :=
  (C7_process_total_on_malformed [1, 2]).1.mpr (by decide)

/-- C8: for every delta value and every text within the size limit,
    processing the sent payload returns exactly the same 32-bit delta and
    the same text bytes — the payload round-trips through the
    `[delta: 4 bytes][length-prefixed text]` format. -/
theorem C8_send_process_roundtrip (maxCommandData delta : Nat)
    (text : List Nat) (hd : delta < 4294967296)
    (hm : maxCommandData < 4294967296)
    (hlen : text.length ≤ maxCommandData - 6) :
    ChatMessageCommand.process
        (ChatMessageCommand.send maxCommandData delta text).2 =
      ChatMessageCommand.ProcessOutcome.received delta text := by
  unfold ChatMessageCommand.send
  dsimp only
  rw [if_neg (by omega)]
  unfold ChatMessageCommand.process
  rw [List.append_assoc, readU32_encodeU32 delta _ hd]
  dsimp only
  unfold ChatMessageCommand.readBlock
  rw [readU32_encodeU32 text.length _ (by omega)]
  dsimp only
  rw [if_pos (Nat.le_refl _)]
  simp

/-- Witness for C8 at a concrete payload. -/
theorem C8_send_process_roundtrip_witness :
    ChatMessageCommand.process (ChatMessageCommand.send 20 7 [104, 105]).2 =
      ChatMessageCommand.ProcessOutcome.received 7 [104, 105] :=
  C8_send_process_roundtrip 20 7 [104, 105] (by decide) (by decide)
    (by decide)

/-- Reduction of `requestReceived` on its renewal branch: authenticated,
    well-formed hostname, not blacklisted, not local, an active record
    found, and no known contact. -/
lemma requestReceived_renew_eq (st : ManagerState) (connId : Nat)
    (nick msg : String) (now : Nat) (c : Connection)
    (r0 : IncomingContactRequest)
    (hl : lookupConn st connId = some c)
    (hne : strIsEmpty c.authHostname = false)
    (hsfx : strEndsWith c.authHostname ".onion" = true)
    (hblk : isHostnameRejected st c.authHostname = false)
    (hloc : st.localHostnames.contains c.authHostname = false)
    (hcon : st.contactHostnames.contains c.authHostname = false)
    (hr0 : requestFromHostname st c.authHostname = some r0) :
    requestReceived st connId nick msg now =
      ({ (setChannel st r0 connId nick msg).1 with
          requests :=
            updateFirst (fun q => q.hostname == c.authHostname)
              (saveDates
                (renew (setChannel st r0 connId nick msg).2 now) now)
              (setChannel st r0 connId nick msg).1.requests,
          store :=
            storeWrite (setChannel st r0 connId nick msg).1.store
              c.authHostname
              (persistOf
                (saveDates
                  (renew (setChannel st r0 connId nick msg).2 now) now)) },
       some Response.Pending) := by
  have hloc2 : c.authHostname ∉ st.localHostnames := by simpa using hloc
  have hcon2 : c.authHostname ∉ st.contactHostnames := by simpa using hcon
  unfold requestReceived
  rw [hl]
  simp [hne, hsfx, hblk, hloc2, hcon2, hr0]

/-- C4: a second inbound request from a non-blacklisted, non-contact
    hostname with an existing record creates no duplicate: the reply is
    `Pending`, the active set keeps its size and still holds exactly one
    record for the hostname, and that record has `lastRequestDate` moved to
    the current time while `requestDate` keeps its old value. -/
theorem C4_renewal_no_duplicate (st : ManagerState) (connId : Nat)
    (nick msg : String) (now d : Nat) (c : Connection)
    (hl : lookupConn st connId = some c)
    (hne : strIsEmpty c.authHostname = false)
    (hsfx : strEndsWith c.authHostname ".onion" = true)
    (hblk : isHostnameRejected st c.authHostname = false)
    (hloc : st.localHostnames.contains c.authHostname = false)
    (hcon : st.contactHostnames.contains c.authHostname = false)
    (hone : st.requests.countP (fun q => q.hostname == c.authHostname) = 1)
    (hdate : ∀ q ∈ st.requests, q.hostname = c.authHostname →
      q.requestDate = some d) :
    (requestReceived st connId nick msg now).2 = some Response.Pending ∧
    (requestReceived st connId nick msg now).1.requests.length =
      st.requests.length ∧
    (requestReceived st connId nick msg now).1.requests.countP
        (fun q => q.hostname == c.authHostname) = 1 ∧
    ∀ q ∈ (requestReceived st connId nick msg now).1.requests,
      q.hostname = c.authHostname →
        q.requestDate = some d ∧ q.lastRequestDate = some now := by
  have hfind : ∃ r0, requestFromHostname st c.authHostname = some r0 := by
    have hpos : 0 < st.requests.countP
        (fun q => q.hostname == c.authHostname) := by omega
    rw [List.countP_pos_iff] at hpos
    obtain ⟨a, ha, hpa⟩ := hpos
    exact Option.isSome_iff_exists.mp
      (List.find?_isSome.mpr ⟨a, ha, hpa⟩)
  obtain ⟨r0, hr0⟩ := hfind
  have hr0mem : r0 ∈ st.requests := List.mem_of_find?_eq_some hr0
  have hr0host : r0.hostname = c.authHostname := by
    have hb := List.find?_some hr0
    simpa using hb
  have hr0date : r0.requestDate = some d := hdate r0 hr0mem hr0host
  obtain ⟨hh, hrd, hld⟩ := setChannel_snd st r0 connId nick msg
  have hsave : saveDates (renew (setChannel st r0 connId nick msg).2 now) now
      = renew (setChannel st r0 connId nick msg).2 now := by
    unfold saveDates
    rw [if_neg (by simp [renew, hrd, hr0date])]
  have hr3host :
      (renew (setChannel st r0 connId nick msg).2 now).hostname =
        c.authHostname := by
    simp [renew, hh, hr0host]
  have hr3p : ((fun q : IncomingContactRequest =>
      q.hostname == c.authHostname)
        (renew (setChannel st r0 connId nick msg).2 now)) = true := by
    simp [hr3host]
  have hr3date :
      (renew (setChannel st r0 connId nick msg).2 now).requestDate =
        some d := by
    simp [renew, hrd, hr0date]
  have hr3last :
      (renew (setChannel st r0 connId nick msg).2 now).lastRequestDate =
        some now := by
    simp [renew]
  obtain ⟨cs, hcs⟩ := setChannel_frame st r0 connId nick msg
  rw [requestReceived_renew_eq st connId nick msg now c r0 hl hne hsfx hblk
    hloc hcon hr0]
  rw [hsave, hcs]
  dsimp only
  refine ⟨rfl, ?_, ?_, ?_⟩
  · exact updateFirst_length _ _ _
  · rw [updateFirst_countP _ _ hr3p]
    exact hone
  · intro q hq hqhost
    have hq3 := updateFirst_mem_unique _ _ hr3p st.requests hone q hq
      (by simp [hqhost])
    rw [hq3]
    exact ⟨hr3date, hr3last⟩

/-- Witness for C4: renewing the saved request keeps one record and only
    moves the last-request date. -/
theorem C4_renewal_no_duplicate_witness :
    (requestReceived exStC3 0 "Bob" "hi" 9).2 = some Response.Pending :=
  (C4_renewal_no_duplicate exStC3 0 "Bob" "hi" 9 1 exConn (by decide)
    (by decide) (by decide) (by decide) (by decide) (by decide) (by decide)
    (by decide)).1

/-- A state in which the peer hostname already belongs to a known contact. -/
def exStKnownContact : ManagerState :=
  { requests := []
    blacklist := []
    store := []
    contactHostnames := ["a.onion"]
    localHostnames := []
    connections := [(0, exConn)]
    contacts := [] }

/-- Counterexample to C1 as stated: on a request from a hostname matching a
    known contact, `requestReceived` does NOT leave the state untouched —
    the channel is attached before the known-contact check runs, so the
    connection's purpose has changed to `InboundRequest`. -/
theorem C1_counterexample_purpose_changes :
    (requestReceived exStKnownContact 0 "Bob" "hello" 5).1
        ≠ exStKnownContact ∧
    Option.map Connection.purpose
        (lookupConn (requestReceived exStKnownContact 0 "Bob" "hello" 5).1 0)
      = some Purpose.InboundRequest := by
  decide

/-- C1 amended: a request whose authenticated hostname matches a known
    contact (and is well formed, not blacklisted, not a local identity) is
    refused with no reply status set, nothing persisted, the blacklist and
    contact list untouched, and the set of active-request hostnames
    unchanged — but only after the channel has been attached, so the
    connection's purpose may already have changed and an existing record
    may have been renewed in memory. -/
theorem C1_known_contact_refusal_after_attach (st : ManagerState)
    (connId : Nat) (nick msg : String) (now : Nat) (c : Connection)
    (hl : lookupConn st connId = some c)
    (hne : strIsEmpty c.authHostname = false)
    (hsfx : strEndsWith c.authHostname ".onion" = true)
    (hblk : isHostnameRejected st c.authHostname = false)
    (hloc : st.localHostnames.contains c.authHostname = false)
    (hcon : st.contactHostnames.contains c.authHostname = true) :
    (requestReceived st connId nick msg now).2 = none ∧
    (requestReceived st connId nick msg now).1.store = st.store ∧
    (requestReceived st connId nick msg now).1.requests.map
        (fun q => q.hostname) = st.requests.map (fun q => q.hostname) ∧
    (requestReceived st connId nick msg now).1.blacklist = st.blacklist ∧
    (requestReceived st connId nick msg now).1.contacts = st.contacts := by
  have hloc2 : c.authHostname ∉ st.localHostnames := by simpa using hloc
  have hcon2 : c.authHostname ∈ st.contactHostnames := by simpa using hcon
  cases hr : requestFromHostname st c.authHostname with
  | none =>
    have heq : requestReceived st connId nick msg now =
        ((setChannel st (newIncomingRequest c.authHostname) connId
            nick msg).1, none) := by
      unfold requestReceived
      rw [hl]
      simp [hne, hsfx, hblk, hloc2, hcon2, hr]
    obtain ⟨cs, hcs⟩ :=
      setChannel_frame st (newIncomingRequest c.authHostname) connId nick msg
    rw [heq, hcs]
    exact ⟨rfl, rfl, rfl, rfl, rfl⟩
  | some r0 =>
    have hr0host : r0.hostname = c.authHostname := by
      simpa using List.find?_some hr
    have heq : requestReceived st connId nick msg now =
        ({ (setChannel st r0 connId nick msg).1 with
            requests := updateFirst (fun q => q.hostname == c.authHostname)
              (renew (setChannel st r0 connId nick msg).2 now)
              (setChannel st r0 connId nick msg).1.requests }, none) := by
      unfold requestReceived
      rw [hl]
      simp [hne, hsfx, hblk, hloc2, hcon2, hr]
    obtain ⟨hh, _, _⟩ := setChannel_snd st r0 connId nick msg
    obtain ⟨cs, hcs⟩ := setChannel_frame st r0 connId nick msg
    rw [heq, hcs]
    dsimp only
    refine ⟨rfl, rfl, ?_, rfl, rfl⟩
    apply updateFirst_map
    intro x hx
    have hx2 : x.hostname = c.authHostname := by simpa using hx
    rw [hx2]
    simp [renew, hh, hr0host]

/-- Witness for the amended C1 at a concrete state. -/
theorem C1_known_contact_refusal_after_attach_witness :
    (requestReceived exStKnownContact 0 "Bob" "hello" 5).2 = none :=
  (C1_known_contact_refusal_after_attach exStKnownContact 0 "Bob" "hello" 5
    exConn (by decide) (by decide) (by decide) (by decide) (by decide)
    (by decide)).1
